import Mathlib

/-!
Verification development for the action-resolution core of `uxbot.py`
(repository omkaark/uxbot).  The definitions below are a shallow embedding
of `choose_action` (lines 49-169) and its helpers (`_fake_func`, the
`FUNCTIONS` table, lines 16-46).  Python dicts of keyword arguments are
modelled as association lists with distinct keys, Python values occurring
in the action grammar as the inductive `PyVal`, and the model service as a
function from call number to response.
-/

/-- The Python values that can appear as keyword-argument values of a
grammar call: integers, strings, booleans and `None`.  Python booleans
compare equal to the integers 0 and 1, which `pyEqInt` reflects. -/
inductive PyVal where
  | int (n : Int)
  | str (s : String)
  | bool (b : Bool)
  | none
  deriving DecidableEq, Repr

/-- A keyword-argument mapping (`**kwargs`): an association list from
parameter names to values.  Python guarantees the keys are distinct. -/
abbrev Kwargs := List (String × PyVal)

instance {ε α : Type} [DecidableEq ε] [DecidableEq α] : DecidableEq (Except ε α)
  | .error e, .error e' =>
    if h : e = e' then .isTrue (h ▸ rfl) else .isFalse (fun hh => h (Except.error.inj hh))
  | .error _, .ok _ => .isFalse Except.noConfusion
  | .ok _, .error _ => .isFalse Except.noConfusion
  | .ok a, .ok a' =>
    if h : a = a' then .isTrue (h ▸ rfl) else .isFalse (fun hh => h (Except.ok.inj hh))

/-- `kwargs.get(k)`: first binding of the key `k`, if any. -/
def kwGet : Kwargs → String → Option PyVal
  | [], _ => Option.none
  | (k', v) :: t, k => if k' = k then some v else kwGet t k

/-- `_id = kwargs.get('id', None)` (line 152): the `id` parameter with the
Python default `None` for an absent key. -/
def getId (kw : Kwargs) : PyVal :=
  (kwGet kw "id").getD PyVal.none

/-- Python `==` between a grammar value and an `int` dict key: `int`
compares by value, `bool` compares as 0/1 (Python's `bool` is an `int`
subclass), `str` and `None` never equal an `int`. -/
def pyEqInt : PyVal → Int → Bool
  | .int m, n => m == n
  | .bool b, n => (if b then (1 : Int) else 0) == n
  | .str _, _ => false
  | .none, _ => false

/-- Python `v in d` for a dict with `int` keys, given the key list. -/
def memKeys (v : PyVal) (keys : List Int) : Bool :=
  keys.any (fun n => pyEqInt v n)

/-- Python `str()` of a grammar value, as used by the f-strings in the
error messages of lines 155-157. -/
def pyValStr : PyVal → String
  | .int n => toString n
  | .str s => s
  | .bool b => if b then "True" else "False"
  | .none => "None"

/-- The exceptions raised inside the `try` block of `choose_action`
(lines 143-157), plus the terminal error of line 167.  `evalError` carries
the `str()` of whatever exception `eval` raised (line 149). -/
inductive Err where
  | noCodeBlock
  | noFunctionCalled
  | missingId
  | notClickable (id : PyVal)
  | notInputable (id : PyVal)
  | arityMismatch (n : Nat)
  | evalError (msg : String)
  | exhausted
  deriving DecidableEq, Repr

/-- The `str()` of each exception, i.e. the `{e}` part of the feedback
message of line 163, and `'Max retries exceeded!'` for line 167. -/
def errStr : Err → String
  | .noCodeBlock => "No code blocks found, please include a code block in your response"
  | .noFunctionCalled => "No function called"
  | .missingId => "No id specified"
  | .notClickable i => "click() called but id " ++ pyValStr i ++ " is not clickable"
  | .notInputable i => "type() called but id " ++ pyValStr i ++ " is not inputable"
  | .arityMismatch n => "Function type() expected 3 arguments, got " ++ toString n
  | .evalError m => m
  | .exhausted => "Max retries exceeded!"

/-- One entry of the `FUNCTIONS` table (lines 19-46): the name bound in
the eval globals, the positional `name` argument that `functools.partial`
fixes for `_fake_func`, the keyword arguments the partial fixes, and the
`args_str`/`args_ex` strings used by the prompt builder. -/
structure FuncSpec where
  name : String
  posName : String
  defaults : Kwargs
  args_str : String
  args_ex : Option String
  deriving DecidableEq, Repr

/-- The `FUNCTIONS` table (lines 19-46), in source order. -/
def FUNCTIONS : List FuncSpec :=
  [⟨"go_back", "go_back", [], "()", Option.none⟩,
   ⟨"scroll_up", "scroll", [("direction", PyVal.str "up")], "()", Option.none⟩,
   ⟨"scroll_down", "scroll", [("direction", PyVal.str "down")], "()", Option.none⟩,
   ⟨"click", "click", [], "(id: int)", some "(id=...)"⟩,
   ⟨"type", "type", [], "(id: int, text: str, submit: bool)",
      some "(id=..., text=..., submit=...)"⟩,
   ⟨"set_objective_complete", "set_objective_complete", [], "()", Option.none⟩]

/-- Dict-comprehension key lookup over `FUNCTIONS`. -/
def lookupSpec : List FuncSpec → String → Option FuncSpec
  | [], _ => Option.none
  | s :: t, f => if s.name = f then some s else lookupSpec t f

/-- Python `{**d, **kw}` for keyword dicts: the keys of `d` in order,
each overridden by `kw` where present, then the keys of `kw` not in `d`. -/
def mergeKw (d kw : Kwargs) : Kwargs :=
  d.map (fun p => (p.1, (kwGet kw p.1).getD p.2)) ++
    kw.filter (fun p => (kwGet d p.1).isNone)

/-- `_fake_func(name, **kwargs)` (lines 16-17) called through a partial
that fixes `name` positionally: returns `(name, kwargs)`, except that a
keyword argument also called `name` collides with the positional one and
raises `TypeError` (modelled as the CPython exception text). -/
def fakeFunc (name : String) (kw : Kwargs) : Except String (String × Kwargs) :=
  if (kwGet kw "name").isSome then
    .error "_fake_func() got multiple values for argument \x27name\x27"
  else
    .ok (name, kw)

/-- Evaluation of the single call expression `f(**kw)` against the
globals `{k: v['func'] for k, v in FUNCTIONS.items()}` of line 149: an
unbound name raises `NameError`; a bound name invokes the corresponding
partial of `_fake_func`, merging the partial's fixed keywords with the
call's keywords the way `functools.partial` does. -/
def evalGrammarCall (f : String) (kw : Kwargs) : Except String (String × Kwargs) :=
  match lookupSpec FUNCTIONS f with
  | Option.none => .error ("name \x27" ++ f ++ "\x27 is not defined")
  | some s => fakeFunc s.posName (mergeKw s.defaults kw)

/-- The validation chain of lines 152-157, in source order,
short-circuiting at the first violation.  `func` is the first component
of the pair eval produced (`None` is possible for non-grammar results,
line 153). -/
def validate (clickables inputs : List Int) (func : Option String) (kw : Kwargs) :
    Except Err (String × Kwargs) :=
  let i := getId kw
  match func with
  | Option.none => .error .noFunctionCalled
  | some f =>
    if (f = "click" ∨ f = "type") ∧ i = PyVal.none then .error .missingId
    else if f = "click" ∧ memKeys i clickables = false then .error (.notClickable i)
    else if f = "type" ∧ memKeys i inputs = false then .error (.notInputable i)
    else if f = "type" ∧ kw.length ≠ 3 then .error (.arityMismatch kw.length)
    else .ok (f, kw)

/-- Resolution of one grammar call `f(**kw)`: eval (line 149) followed by
validation (lines 152-157).  A successful resolution returns the
`(func, kwargs)` pair of line 169. -/
def resolveCall (clickables inputs : List Int) (f : String) (kw : Kwargs) :
    Except Err (String × Kwargs) :=
  match evalGrammarCall f kw with
  | .error m => .error (.evalError m)
  | .ok (nm, kw') => validate clickables inputs (some nm) kw'

/-- Whether resolution succeeded (returned rather than raised). -/
def resolvedOk : Except Err (String × Kwargs) → Bool
  | .ok _ => true
  | .error _ => false


/-! ### The code-block extraction of lines 144-146

`re.findall(r'<fence>(?:python)?\n(.*?)\n<fence>', response, re.DOTALL)`
where `<fence>` is three backticks: scan for the leftmost occurrence of a
fence, optionally followed by `python`, then a newline, then a lazily
matched body up to the first newline-fence, collecting the bodies of the
non-overlapping matches from left to right. -/

/-- The backtick character of the fence. -/
def btick : Char := Char.ofNat 96

/-- Three backticks, the fence of the pattern. -/
def fenceOpen : List Char := [btick, btick, btick]

/-- Newline followed by three backticks, the closing delimiter. -/
def fenceClose : List Char := ['\n', btick, btick, btick]

/-- Whether `p` is an initial segment of `l`. -/
def listStarts : List Char → List Char → Bool
  | [], _ => true
  | _ :: _, [] => false
  | p :: ps, c :: cs => p == c && listStarts ps cs

/-- Lazy search for the closing `\n`-fence: the body up to the first
occurrence and the remainder after the whole delimiter, or `none` when no
closing delimiter exists (backtracking cannot revive the match, see
`matchFenceAt`). -/
def findClose : List Char → Option (List Char × List Char)
  | [] => Option.none
  | c :: cs =>
    if listStarts fenceClose (c :: cs) then some ([], (c :: cs).drop 4)
    else
      match findClose cs with
      | some (body, rest) => some (c :: body, rest)
      | Option.none => Option.none

/-- One anchored match attempt of the pattern at the head of `l`: the
fence, then the greedy-but-optional `python` tag followed by the required
newline (if `python` is present but the rest fails, the empty alternative
needs a newline where a `p` stands, so the whole position fails), then
the lazy body and the closing delimiter. -/
def matchFenceAt (l : List Char) : Option (List Char × List Char) :=
  if listStarts fenceOpen l then
    let r := l.drop 3
    if listStarts ("python".toList ++ ['\n']) r then findClose (r.drop 7)
    else if listStarts ['\n'] r then findClose (r.drop 1)
    else Option.none
  else Option.none

/-- `re.findall` for the pattern: leftmost non-overlapping matches,
advancing one character when no match is anchored at the current
position.  The fuel only bounds the recursion; every step strictly
shortens the input, so any fuel above the input length gives the fixed
point (`findallAux_fuel`). -/
def findallAux : Nat → List Char → List (List Char)
  | 0, _ => []
  | fuel + 1, l =>
    match matchFenceAt l with
    | some (body, rest) => body :: findallAux fuel rest
    | Option.none =>
      match l with
      | [] => []
      | _ :: t => findallAux fuel t

/-- `code = re.findall(r'...(?:python)?\n(.*?)\n...', response_message, re.DOTALL)`
(line 144), on strings. -/
def pyFindall (s : String) : List String :=
  (findallAux (s.toList.length + 1) s.toList).map (fun cs => String.mk cs)

/-- Lines 144-146 and the use at line 149: raise when no code block was
found, otherwise hand `code[-1]` (the last block) to eval. -/
def extractCode (s : String) : Except Err String :=
  let code := pyFindall s
  if code.length = 0 then .error .noCodeBlock
  else .ok ((code.getLast?).getD "")


/-! ### The page-index rendering of lines 51-65

The loop iterates `inputs.keys() | clickables.keys()`, a Python set whose
iteration order the language leaves unspecified; the rendering is
therefore parameterised by that order, constrained by `validOrder` to
visit each key of the union exactly once.  Node objects are modelled by
their `__repr__(indent=2)` string. -/

/-- Dict lookup in a page-index dict (`int` keys, node-repr values). -/
def getNode : List (Int × String) → Int → Option String
  | [], _ => Option.none
  | (k, v) :: t, i => if k = i then some v else getNode t i

/-- Python `i in d` on a page-index dict. -/
def hasKeyI (l : List (Int × String)) (i : Int) : Bool :=
  (getNode l i).isSome

/-- One `<node>` entry as produced by the body of the loop of lines
52-64: the flags are membership of the two dicts, and the displayed node
comes from `clickables` when the id is clickable (the `inputs` binding of
line 56 is overwritten at line 59), otherwise from `inputs`.  (When the
id is in neither dict the source would hit an unbound local; `validOrder`
rules that out, and the total model renders `""`.) -/
structure NodeEntry where
  id : Int
  clickable : Bool
  inputable : Bool
  reprText : String
  deriving DecidableEq, Repr

/-- The entry rendered for identifier `i` (lines 53-64). -/
def nodeEntry (inputs clickables : List (Int × String)) (i : Int) : NodeEntry :=
  let inputable := hasKeyI inputs i
  let clickable := hasKeyI clickables i
  let node := if clickable then (getNode clickables i).getD ""
              else (getNode inputs i).getD ""
  ⟨i, clickable, inputable, node⟩

/-- All entries, in the set-iteration order `order`. -/
def renderEntries (order : List Int) (inputs clickables : List (Int × String)) :
    List NodeEntry :=
  order.map (nodeEntry inputs clickables)

/-- Python `str()` of a boolean, as interpolated at line 62. -/
def pyBoolStr (b : Bool) : String := if b then "True" else "False"

/-- The text of one entry (lines 62-64). -/
def entryText (e : NodeEntry) : String :=
  "<node id=" ++ toString e.id ++ " clickable=" ++ pyBoolStr e.clickable ++
    " inputable=" ++ pyBoolStr e.inputable ++ ">\n" ++ e.reprText ++ "\n</node>\n"

/-- `html_description` (line 65): the concatenation of the entries. -/
def htmlDescription (order : List Int) (inputs clickables : List (Int × String)) : String :=
  String.join ((renderEntries order inputs clickables).map entryText)

/-- Structural membership test on an identifier list. -/
def memI (i : Int) : List Int → Bool
  | [] => false
  | a :: t => (a == i) || memI i t

lemma memI_iff (i : Int) (l : List Int) : memI i l = true ↔ i ∈ l := by
  induction l with
  | nil => simp [memI]
  | cons a t ih =>
    rw [memI, List.mem_cons]
    simp only [Bool.or_eq_true, beq_iff_eq]
    constructor
    · rintro (h | h)
      · exact Or.inl h.symm
      · exact Or.inr (ih.mp h)
    · rintro (h | h)
      · exact Or.inl h.symm
      · exact Or.inr (ih.mpr h)

/-- Structural no-duplicates test on an identifier list. -/
def nodupI : List Int → Bool
  | [] => true
  | a :: t => !(memI a t) && nodupI t

lemma nodupI_iff : ∀ l : List Int, nodupI l = true ↔ l.Nodup := by
  intro l
  induction l with
  | nil => simp [nodupI]
  | cons a t ih =>
    rw [nodupI, List.nodup_cons]
    simp only [Bool.and_eq_true, Bool.not_eq_true']
    constructor
    · rintro ⟨h1, h2⟩
      refine ⟨fun hm => ?_, ih.mp h2⟩
      rw [(memI_iff a t).mpr hm] at h1
      simp at h1
    · rintro ⟨h1, h2⟩
      refine ⟨?_, ih.mpr h2⟩
      cases hm : memI a t
      · rfl
      · exact absurd ((memI_iff a t).mp hm) h1

/-- `order` is a possible iteration order of the Python set
`inputs.keys() | clickables.keys()`: each identifier of the union exactly
once, in some order.  CPython fixes one such order through its hash
table; the language specifies none. -/
def validOrder (order : List Int) (inputs clickables : List (Int × String)) : Prop :=
  nodupI order = true ∧
  (∀ i ∈ order, (hasKeyI inputs i || hasKeyI clickables i) = true) ∧
  (∀ p ∈ inputs, memI p.1 order = true) ∧
  (∀ p ∈ clickables, memI p.1 order = true)

instance (order : List Int) (inputs clickables : List (Int × String)) :
    Decidable (validOrder order inputs clickables) :=
  inferInstanceAs (Decidable (nodupI order = true ∧
    (∀ i ∈ order, (hasKeyI inputs i || hasKeyI clickables i) = true) ∧
    (∀ p ∈ inputs, memI p.1 order = true) ∧
    (∀ p ∈ clickables, memI p.1 order = true)))

/-! ### The conversation transcript and the prompt builder
(lines 73-117 and 163) -/

/-- A transcript message: role plus content (the dicts of lines 91, 113,
138 and 163). -/
inductive Msg where
  | system (content : String)
  | user (content : String)
  | assistant (content : String)
  deriving DecidableEq, Repr

/-- `output_format` (lines 73-88): the fixed template text followed by
one fenced example per function (using `args_ex` when present, else
`args_str`) joined by `OR`, with the trailing `OR\n` sliced off. -/
def outputFormat : String :=
  (FUNCTIONS.foldl
    (fun s f => s ++ "```python\n" ++ f.name ++ (f.args_ex.getD f.args_str) ++ "\n```\nOR\n")
    ("## Reflection\n1. Did you your last action get your closer to your objective? If this is your first action, just put \"N/A\".\n2. Why or why not? If this is your first action, just put \"N/A\".\n\n## Plan\n1. What is your new plan based on your reflection?\n2. What will your first step be given the current HTML? Which node will you interact with? What function will you call?\n\n## Code\nCall ONE of the following functions:\n")).dropRight 3

/-- The system message content of lines 93-102. -/
def systemContent (objective persona : String) : String :=
  "Your objective is: \"" ++ objective ++ "\"\n" ++
  "Your user persona is: \"" ++ persona ++
    "\", make sure your reflections match your persona\x27s personality\n" ++
  "You are given a browser where you can either go back a page, scroll up/down, click, or type into <node> elements on the page.\n" ++
  "If you believe you have accomplished your objective, call the set_objective_complete() function to finish your task.\n" ++
  "You can only click on nodes with clickable=True, or type into nodes with inputable=True.\n" ++
  "You can only call one function at a time, and always output a single one-line code block\n" ++
  "Output in the following format:\n" ++ outputFormat ++ "\n" ++
  "Do not repeat the questions in the output, only the headings and numbers."

/-- The per-step user prompt of lines 106-111. -/
def userPromptContent (order : List Int) (inputs clickables : List (Int × String)) : String :=
  "Here are nodes that you can click on and/or type into:\n\n" ++
    htmlDescription order inputs clickables ++ "\n\n" ++
  "Answer the reflection questions, then call one of the available functions. The available functions are:\n\n" ++
    String.intercalate "\n" (FUNCTIONS.map (fun f => f.name ++ f.args_str)) ++ "\n\n" ++
  "Note the when using the type() function, you must also specify whether to submit the form after typing (i.e. pressing enter)."

/-- The corrective feedback content of line 163: the exception's text,
the fixed wrapper, and the `traceback.format_exc()` string `tb`. -/
def errFeedback (e : Err) (tb : String) : String :=
  errStr e ++ "\n\nI got an error running your code. Here is the full error message:\n" ++
    tb ++ "\nCan you fix the error and try again?"

/-! ### The retry loop of lines 119-169 -/

/-- `MAX_RETRIES` (line 12). -/
def MAX_RETRIES : Nat := 3

/-- What evaluating the last code block of a response does.  Python
`eval` on arbitrary text is not shallowly embeddable, so a response
carries its outcome: either it raises (with the exception text), or it
returns a pair that unpacks into `(func, kwargs)`.  A response whose
last block is the grammar call `f(**kw)` has outcome
`outcomeOfCall f kw`. -/
inductive EvalOutcome where
  | raises (msg : String)
  | returns (func : Option String) (kw : Kwargs)
  deriving DecidableEq, Repr

/-- One model-service response: the streamed text (line 130-136) and the
outcome of evaluating its last code block. -/
structure ModelResponse where
  text : String
  outcome : EvalOutcome
  deriving DecidableEq, Repr

/-- The eval outcome of a last block that is the single grammar call
`f(**kw)`, per line 149. -/
def outcomeOfCall (f : String) (kw : Kwargs) : EvalOutcome :=
  match evalGrammarCall f kw with
  | .error m => .raises m
  | .ok (nm, kw') => .returns (some nm) kw'

/-- The `try` block of lines 143-157 for one response: extraction of the
last code block, evaluation, validation. -/
def attemptOf (clickables inputs : List Int) (r : ModelResponse) :
    Except Err (String × Kwargs) :=
  match extractCode r.text with
  | .error e => .error e
  | .ok _ =>
    match r.outcome with
    | .raises m => .error (.evalError m)
    | .returns f kw => validate clickables inputs f kw

/-- What one `choose_action` call produces: the resolved `(func, kwargs)`
or the raised error, the final transcript, and the number of
model-service calls issued. -/
structure ChooseResult where
  result : Except Err (String × Kwargs)
  messages : List Msg
  modelCalls : Nat
  deriving DecidableEq, Repr

/-- The `while retries < MAX_RETRIES` loop of lines 119-164 followed by
the check of lines 166-167, recursing on the remaining retry budget
`MAX_RETRIES - retries` (the loop body only reads `retries` through that
bound).  `model n` is the response to the `n`-th model call (line 122),
`tb n` the traceback text a failure of attempt `n` would format
(line 162).  Each iteration appends the full response as an assistant
message (line 138), then either returns the validated pair (lines 158,
169) or appends one corrective user message (line 163) and retries;
an exhausted budget raises `'Max retries exceeded!'` (line 167). -/
def runLoop (clickables inputs : List Int) (model : Nat → ModelResponse)
    (tb : Nat → String) : Nat → Nat → List Msg → ChooseResult
  | 0, calls, ms => ⟨.error .exhausted, ms, calls⟩
  | rem + 1, calls, ms =>
    let r := model calls
    let ms' := ms ++ [Msg.assistant r.text]
    match attemptOf clickables inputs r with
    | .ok v => ⟨.ok v, ms', calls + 1⟩
    | .error e =>
      runLoop clickables inputs model tb rem (calls + 1)
        (ms' ++ [Msg.user (errFeedback e (tb calls))])

/-- `choose_action` (lines 49-169): render the page index (over the set
iteration order `order`), seed the transcript with the system message
when it is empty (lines 90-104), append the user prompt (lines 106-117),
and run the retry loop. -/
def chooseAction (objective persona : String) (init : List Msg)
    (inputs clickables : List (Int × String)) (order : List Int)
    (model : Nat → ModelResponse) (tb : Nat → String) : ChooseResult :=
  let ms0 := if init.length = 0
    then init ++ [Msg.system (systemContent objective persona)] else init
  let ms1 := ms0 ++ [Msg.user (userPromptContent order inputs clickables)]
  runLoop (clickables.map Prod.fst) (inputs.map Prod.fst) model tb MAX_RETRIES 0 ms1

/-- The messages the retry loop appends, made explicit: one assistant
message per attempt, and one corrective user message per failed attempt. -/
def loopMsgs (clickables inputs : List Int) (model : Nat → ModelResponse)
    (tb : Nat → String) : Nat → Nat → List Msg
  | 0, _ => []
  | rem + 1, calls =>
    match attemptOf clickables inputs (model calls) with
    | .ok _ => [Msg.assistant (model calls).text]
    | .error e =>
      Msg.assistant (model calls).text :: Msg.user (errFeedback e (tb calls)) ::
        loopMsgs clickables inputs model tb rem (calls + 1)

/-! ### The eval globals of line 149 -/

/-- The keys of the globals dict `{k: v['func'] for k, v in
FUNCTIONS.items()}` passed to `eval` at line 149. -/
def evalGlobalsNames : List String := FUNCTIONS.map (fun s => s.name)

/-- The names actually bound during the evaluation.  CPython's documented
`eval` behavior: when the supplied globals mapping has no
`"__builtins__"` key, the interpreter inserts a reference to the full
`builtins` module under that key before evaluating, so every builtin
remains reachable from the evaluated expression. -/
def effectiveEvalNames : List String :=
  if "__builtins__" ∈ evalGlobalsNames then evalGlobalsNames
  else evalGlobalsNames ++ ["__builtins__"]


/-! ### Helper lemmas -/

lemma mergeKw_nil (kw : Kwargs) : mergeKw [] kw = kw := by
  unfold mergeKw
  simp only [List.map_nil, List.nil_append]
  rw [List.filter_eq_self]
  intro a _
  rfl

lemma kwGet_filter (q : String × PyVal → Bool) (kw : Kwargs) (k : String)
    (hq : ∀ v, q (k, v) = true) :
    kwGet (kw.filter q) k = kwGet kw k := by
  induction kw with
  | nil => rfl
  | cons p t ih =>
    obtain ⟨k', v'⟩ := p
    by_cases hk : k' = k
    · subst hk
      rw [List.filter_cons, if_pos (hq v')]
      simp [kwGet]
    · rw [List.filter_cons]
      by_cases hp : q (k', v') = true
      · rw [if_pos hp]
        simp [kwGet, hk, ih]
      · rw [if_neg hp]
        simp [kwGet, hk, ih]

lemma kwGet_mergeKw_single (d : String) (v0 : PyVal) (kw : Kwargs) (k : String) :
    kwGet (mergeKw [(d, v0)] kw) k =
      if d = k then some ((kwGet kw d).getD v0) else kwGet kw k := by
  unfold mergeKw
  simp only [List.map_cons, List.map_nil]
  by_cases hd : d = k
  · simp [kwGet, hd]
  · show kwGet ((d, (kwGet kw d).getD v0) :: kw.filter _) k = _
    rw [kwGet, if_neg hd, if_neg hd]
    apply kwGet_filter
    intro v
    simp [kwGet, hd]

lemma memKeys_none (l : List Int) : memKeys PyVal.none l = false := by
  induction l with
  | nil => rfl
  | cons a t _ => simp [memKeys, pyEqInt]

lemma hasKeyI_iff (l : List (Int × String)) (i : Int) :
    hasKeyI l i = true ↔ ∃ s, (i, s) ∈ l := by
  induction l with
  | nil => simp [hasKeyI, getNode]
  | cons p t ih =>
    obtain ⟨k, v⟩ := p
    by_cases hk : k = i
    · subst hk
      simp [hasKeyI, getNode]
    · rw [hasKeyI] at ih ⊢
      rw [getNode, if_neg hk]
      rw [ih]
      constructor
      · rintro ⟨s, hs⟩; exact ⟨s, List.mem_cons_of_mem _ hs⟩
      · rintro ⟨s, hs⟩
        rcases List.mem_cons.mp hs with h | h
        · exact absurd (congrArg Prod.fst h).symm hk
        · exact ⟨s, h⟩

lemma lookupSpec_mem : ∀ (l : List FuncSpec) (f : String) (s : FuncSpec),
    lookupSpec l f = some s → s ∈ l := by
  intro l
  induction l with
  | nil => intro f s h; simp [lookupSpec] at h
  | cons a t ih =>
    intro f s h
    rw [lookupSpec] at h
    by_cases ha : a.name = f
    · rw [if_pos ha] at h
      exact (Option.some.inj h) ▸ List.mem_cons_self a t
    · rw [if_neg ha] at h
      exact List.mem_cons_of_mem _ (ih f s h)

lemma FUNCTIONS_posName : ∀ s ∈ FUNCTIONS,
    s.posName ∈ ["go_back", "scroll", "click", "type", "set_objective_complete"] := by
  decide

lemma validate_ok_shape (clk inp : List Int) (f : Option String) (kw : Kwargs)
    (r : String × Kwargs) (h : validate clk inp f kw = .ok r) :
    ∃ nm, f = some nm ∧ r = (nm, kw) := by
  cases f with
  | none => simp [validate] at h
  | some nm =>
    refine ⟨nm, rfl, ?_⟩
    simp only [validate] at h
    split at h
    · exact absurd h (by simp)
    · split at h
      · exact absurd h (by simp)
      · split at h
        · exact absurd h (by simp)
        · split at h
          · exact absurd h (by simp)
          · exact (Except.ok.inj h).symm

lemma validate_click_eq (clk inp : List Int) (kw : Kwargs) :
    validate clk inp (some "click") kw =
      if getId kw = PyVal.none then .error .missingId
      else if memKeys (getId kw) clk = false then .error (.notClickable (getId kw))
      else .ok ("click", kw) := by
  have hct : ("click" : String) ≠ "type" := by decide
  by_cases h1 : getId kw = PyVal.none
  · simp [validate, h1]
  · by_cases h2 : memKeys (getId kw) clk = false
    · simp [validate, h1, h2, hct]
    · simp [validate, h1, h2, hct]

lemma validate_type_eq (clk inp : List Int) (kw : Kwargs) :
    validate clk inp (some "type") kw =
      if getId kw = PyVal.none then .error .missingId
      else if memKeys (getId kw) inp = false then .error (.notInputable (getId kw))
      else if kw.length ≠ 3 then .error (.arityMismatch kw.length)
      else .ok ("type", kw) := by
  have htc : ("type" : String) ≠ "click" := by decide
  by_cases h1 : getId kw = PyVal.none
  · simp [validate, h1]
  · by_cases h2 : memKeys (getId kw) inp = false
    · simp [validate, h1, h2, htc]
    · by_cases h3 : kw.length = 3
      · simp [validate, h1, h2, h3, htc]
      · simp [validate, h1, h2, h3, htc]

lemma validate_other (clk inp : List Int) (kw : Kwargs) (f : String)
    (h1 : f ≠ "click") (h2 : f ≠ "type") :
    validate clk inp (some f) kw = .ok (f, kw) := by
  simp [validate, h1, h2]

lemma evalGrammarCall_go_back (kw : Kwargs) (h : kwGet kw "name" = Option.none) :
    evalGrammarCall "go_back" kw = .ok ("go_back", kw) := by
  have h0 : lookupSpec FUNCTIONS "go_back" =
      some ⟨"go_back", "go_back", [], "()", Option.none⟩ := rfl
  unfold evalGrammarCall
  rw [h0]
  simp [fakeFunc, mergeKw_nil, h]

lemma evalGrammarCall_soc (kw : Kwargs) (h : kwGet kw "name" = Option.none) :
    evalGrammarCall "set_objective_complete" kw = .ok ("set_objective_complete", kw) := by
  have h0 : lookupSpec FUNCTIONS "set_objective_complete" =
      some ⟨"set_objective_complete", "set_objective_complete", [], "()", Option.none⟩ := rfl
  unfold evalGrammarCall
  rw [h0]
  simp [fakeFunc, mergeKw_nil, h]

lemma evalGrammarCall_click (kw : Kwargs) (h : kwGet kw "name" = Option.none) :
    evalGrammarCall "click" kw = .ok ("click", kw) := by
  have h0 : lookupSpec FUNCTIONS "click" =
      some ⟨"click", "click", [], "(id: int)", some "(id=...)"⟩ := rfl
  unfold evalGrammarCall
  rw [h0]
  simp [fakeFunc, mergeKw_nil, h]

lemma evalGrammarCall_type (kw : Kwargs) (h : kwGet kw "name" = Option.none) :
    evalGrammarCall "type" kw = .ok ("type", kw) := by
  have h0 : lookupSpec FUNCTIONS "type" =
      some ⟨"type", "type", [], "(id: int, text: str, submit: bool)",
        some "(id=..., text=..., submit=...)"⟩ := rfl
  unfold evalGrammarCall
  rw [h0]
  simp [fakeFunc, mergeKw_nil, h]

lemma evalGrammarCall_scroll_up (kw : Kwargs) (h : kwGet kw "name" = Option.none) :
    evalGrammarCall "scroll_up" kw =
      .ok ("scroll", mergeKw [("direction", PyVal.str "up")] kw) := by
  have h0 : lookupSpec FUNCTIONS "scroll_up" =
      some ⟨"scroll_up", "scroll", [("direction", PyVal.str "up")], "()", Option.none⟩ := rfl
  have hdn : ("direction" : String) ≠ "name" := by decide
  unfold evalGrammarCall
  rw [h0]
  have hn : kwGet (mergeKw [("direction", PyVal.str "up")] kw) "name" = Option.none := by
    rw [kwGet_mergeKw_single, if_neg hdn, h]
  simp [fakeFunc, hn]

lemma evalGrammarCall_scroll_down (kw : Kwargs) (h : kwGet kw "name" = Option.none) :
    evalGrammarCall "scroll_down" kw =
      .ok ("scroll", mergeKw [("direction", PyVal.str "down")] kw) := by
  have h0 : lookupSpec FUNCTIONS "scroll_down" =
      some ⟨"scroll_down", "scroll", [("direction", PyVal.str "down")], "()", Option.none⟩ := rfl
  have hdn : ("direction" : String) ≠ "name" := by decide
  unfold evalGrammarCall
  rw [h0]
  have hn : kwGet (mergeKw [("direction", PyVal.str "down")] kw) "name" = Option.none := by
    rw [kwGet_mergeKw_single, if_neg hdn, h]
  simp [fakeFunc, hn]

lemma resolvedOk_click (clk inp : List Int) (kw : Kwargs)
    (h : kwGet kw "name" = Option.none) :
    resolvedOk (resolveCall clk inp "click" kw) = memKeys (getId kw) clk := by
  unfold resolveCall
  rw [evalGrammarCall_click kw h]
  show resolvedOk (validate clk inp (some "click") kw) = _
  rw [validate_click_eq]
  by_cases h1 : getId kw = PyVal.none
  · simp [h1, resolvedOk, memKeys_none]
  · by_cases h2 : memKeys (getId kw) clk = false
    · simp [h1, h2, resolvedOk]
    · have h2' : memKeys (getId kw) clk = true := by
        revert h2; cases memKeys (getId kw) clk <;> simp
      simp [h1, h2', resolvedOk]

lemma findClose_length : ∀ (l body rest : List Char),
    findClose l = some (body, rest) → rest.length < l.length := by
  intro l
  induction l with
  | nil => intro b r h; simp [findClose] at h
  | cons c cs ih =>
    intro b r h
    rw [findClose] at h
    by_cases hs : listStarts fenceClose (c :: cs) = true
    · rw [if_pos hs] at h
      have hr : r = (c :: cs).drop 4 := (congrArg Prod.snd (Option.some.inj h)).symm
      subst hr
      simp [List.length_drop]
      omega
    · rw [if_neg hs] at h
      cases hm : findClose cs with
      | none => rw [hm] at h; exact absurd h (by simp)
      | some p =>
        obtain ⟨b', r'⟩ := p
        rw [hm] at h
        have hr : r = r' := (congrArg Prod.snd (Option.some.inj h)).symm
        subst hr
        have := ih b' r hm
        simp
        omega

lemma matchFenceAt_length (l body rest : List Char)
    (h : matchFenceAt l = some (body, rest)) : rest.length < l.length := by
  rw [matchFenceAt] at h
  by_cases h0 : listStarts fenceOpen l = true
  · rw [if_pos h0] at h
    by_cases h1 : listStarts ("python".toList ++ ['\n']) (l.drop 3) = true
    · rw [if_pos h1] at h
      have := findClose_length _ _ _ h
      simp [List.length_drop] at this
      omega
    · rw [if_neg h1] at h
      by_cases h2 : listStarts ['\n'] (l.drop 3) = true
      · rw [if_pos h2] at h
        have := findClose_length _ _ _ h
        have h3 : l ≠ [] := by
          intro he; subst he; simp [listStarts, fenceOpen] at h0
        simp [List.length_drop] at this
        have : rest.length < l.length - 3 - 1 ∨ rest.length < l.length := by omega
        cases l with
        | nil => exact absurd rfl h3
        | cons a t => simp [List.length_drop] at *; omega
      · rw [if_neg h2] at h; exact absurd h (by simp)
  · rw [if_neg h0] at h; exact absurd h (by simp)

lemma findallAux_fuel : ∀ (n : Nat) (l : List Char) (f1 f2 : Nat),
    l.length ≤ n → l.length < f1 → l.length < f2 →
    findallAux f1 l = findallAux f2 l := by
  intro n
  induction n with
  | zero =>
    intro l f1 f2 hn h1 h2
    have hl : l = [] := List.length_eq_zero.mp (Nat.le_zero.mp hn)
    subst hl
    cases f1 with
    | zero => omega
    | succ g1 =>
      cases f2 with
      | zero => omega
      | succ g2 => rfl
  | succ m ih =>
    intro l f1 f2 hn h1 h2
    cases f1 with
    | zero => omega
    | succ g1 =>
      cases f2 with
      | zero => omega
      | succ g2 =>
        simp only [findallAux]
        cases hm : matchFenceAt l with
        | some p =>
          obtain ⟨b, rest⟩ := p
          have hr := matchFenceAt_length l b rest hm
          show b :: findallAux g1 rest = b :: findallAux g2 rest
          rw [ih rest g1 g2 (by omega) (by omega) (by omega)]
        | none =>
          cases l with
          | nil => rfl
          | cons c t =>
            show findallAux g1 t = findallAux g2 t
            simp only [List.length_cons] at hn h1 h2
            exact ih t g1 g2 (by omega) (by omega) (by omega)

lemma runLoop_messages (C I : List Int) (model : Nat → ModelResponse) (tb : Nat → String) :
    ∀ (rem calls : Nat) (ms : List Msg),
    (runLoop C I model tb rem calls ms).messages = ms ++ loopMsgs C I model tb rem calls := by
  intro rem
  induction rem with
  | zero => intro calls ms; simp [runLoop, loopMsgs]
  | succ n ih =>
    intro calls ms
    rw [runLoop, loopMsgs]
    cases h : attemptOf C I (model calls) with
    | ok v => simp [h]
    | error e => simp [h, ih]

lemma runLoop_calls_le (C I : List Int) (model : Nat → ModelResponse) (tb : Nat → String) :
    ∀ (rem calls : Nat) (ms : List Msg),
    (runLoop C I model tb rem calls ms).modelCalls ≤ calls + rem := by
  intro rem
  induction rem with
  | zero => intro calls ms; simp [runLoop]
  | succ n ih =>
    intro calls ms
    rw [runLoop]
    cases h : attemptOf C I (model calls) with
    | ok v => simp [h]
    | error e =>
      simp only [h]
      have := ih (calls + 1) (ms ++ [Msg.assistant (model calls).text] ++
        [Msg.user (errFeedback e (tb calls))])
      omega

lemma runLoop_all_fail (C I : List Int) (model : Nat → ModelResponse) (tb : Nat → String) :
    ∀ (rem calls : Nat) (ms : List Msg),
    (∀ i, i < rem → resolvedOk (attemptOf C I (model (calls + i))) = false) →
    (runLoop C I model tb rem calls ms).result = .error .exhausted ∧
      (runLoop C I model tb rem calls ms).modelCalls = calls + rem := by
  intro rem
  induction rem with
  | zero => intro calls ms _; simp [runLoop]
  | succ n ih =>
    intro calls ms h
    have h0 : resolvedOk (attemptOf C I (model calls)) = false := by
      have := h 0 (Nat.succ_pos n)
      simpa using this
    rw [runLoop]
    cases ha : attemptOf C I (model calls) with
    | ok v => rw [ha] at h0; simp [resolvedOk] at h0
    | error e =>
      have hshift : ∀ i, i < n →
          resolvedOk (attemptOf C I (model (calls + 1 + i))) = false := by
        intro i hi
        have heq : calls + 1 + i = calls + (i + 1) := by omega
        rw [heq]
        exact h (i + 1) (by omega)
      have := ih (calls + 1) (ms ++ [Msg.assistant (model calls).text] ++
        [Msg.user (errFeedback e (tb calls))]) hshift
      simp only [ha]
      refine ⟨this.1, ?_⟩
      rw [this.2]
      omega

lemma resolvedOk_type (clk inp : List Int) (kw : Kwargs)
    (h : kwGet kw "name" = Option.none) :
    resolvedOk (resolveCall clk inp "type" kw) =
      (memKeys (getId kw) inp && decide (kw.length = 3)) := by
  unfold resolveCall
  rw [evalGrammarCall_type kw h]
  show resolvedOk (validate clk inp (some "type") kw) = _
  rw [validate_type_eq]
  by_cases h1 : getId kw = PyVal.none
  · simp [h1, resolvedOk, memKeys_none]
  · by_cases h2 : memKeys (getId kw) inp = false
    · simp [h1, h2, resolvedOk]
    · have h2' : memKeys (getId kw) inp = true := by
        revert h2; cases memKeys (getId kw) inp <;> simp
      by_cases h3 : kw.length = 3
      · simp [h1, h2', h3, resolvedOk]
      · simp [h1, h2', h3, resolvedOk]

lemma chooseAction_eq (objective persona : String) (init : List Msg)
    (inputs clickables : List (Int × String)) (order : List Int)
    (model : Nat → ModelResponse) (tb : Nat → String) :
    chooseAction objective persona init inputs clickables order model tb =
      runLoop (clickables.map Prod.fst) (inputs.map Prod.fst) model tb MAX_RETRIES 0
        ((if init.length = 0
            then init ++ [Msg.system (systemContent objective persona)] else init) ++
          [Msg.user (userPromptContent order inputs clickables)]) := rfl

lemma renderEntries_ids (order : List Int) (inputs clickables : List (Int × String)) :
    (renderEntries order inputs clickables).map NodeEntry.id = order := by
  unfold renderEntries
  rw [List.map_map]
  have : (NodeEntry.id ∘ nodeEntry inputs clickables) = fun i => i := by
    funext i; rfl
  rw [this, List.map_id']

lemma hasKey_mem_order (order : List Int) (inputs clickables : List (Int × String))
    (h : validOrder order inputs clickables) (i : Int)
    (hk : (hasKeyI inputs i || hasKeyI clickables i) = true) : i ∈ order := by
  obtain ⟨-, -, hin, hclk⟩ := h
  have hk' : hasKeyI inputs i = true ∨ hasKeyI clickables i = true := by simpa using hk
  rcases hk' with h1 | h2
  · obtain ⟨s, hs⟩ := (hasKeyI_iff inputs i).mp h1
    exact (memI_iff i order).mp (hin (i, s) hs)
  · obtain ⟨s, hs⟩ := (hasKeyI_iff clickables i).mp h2
    exact (memI_iff i order).mp (hclk (i, s) hs)

/-! ### The claims -/

/-- Claim C1, counterexample.  The claim states that `click` resolution
succeeds whenever the supplied id is a key of the clickable set, for
every supplied parameter mapping.  The mapping `{id: 3, name: "x"}` has
id `3` clickable, yet resolution raises: the extra keyword `name`
collides with the positional `name` argument `functools.partial` fixed
for `_fake_func`, a `TypeError` inside `eval`. -/
theorem click_name_collision_cex :
    memKeys (getId [("id", PyVal.int 3), ("name", PyVal.str "x")]) [3] = true ∧
    resolvedOk (resolveCall [3] [] "click" [("id", PyVal.int 3), ("name", PyVal.str "x")]) =
      false := by
  decide

/-- Claim C1 (amended): for every page index and every supplied parameter
mapping that does not bind the reserved keyword `name`, resolution of a
`click` call succeeds iff the supplied id is a key of the clickable set,
and resolution of a `type` call succeeds iff the supplied id is a key of
the inputable set and exactly three parameters are supplied. -/
theorem click_type_success_amended (clickables inputs : List Int) (kw : Kwargs)
    (h : kwGet kw "name" = Option.none) :
    resolvedOk (resolveCall clickables inputs "click" kw) = memKeys (getId kw) clickables ∧
    resolvedOk (resolveCall clickables inputs "type" kw) =
      (memKeys (getId kw) inputs && decide (kw.length = 3)) :=
  ⟨resolvedOk_click clickables inputs kw h, resolvedOk_type clickables inputs kw h⟩

/-- Claim C1, witness for the amended theorem at a concrete input. -/
theorem click_type_success_amended_w :
    kwGet [("id", PyVal.int 3)] "name" = Option.none ∧
    resolvedOk (resolveCall [3] [] "click" [("id", PyVal.int 3)]) =
      memKeys (getId [("id", PyVal.int 3)]) [3] :=
  ⟨by decide, (click_type_success_amended [3] [] [("id", PyVal.int 3)] (by decide)).1⟩

/-- Claim C2: the resolver makes at most `MAX_RETRIES` model-service
calls per resolution; when the first `MAX_RETRIES` attempts all fail to
parse or validate, it raises the terminal error (whose text is
`'Max retries exceeded!'`) having made exactly `MAX_RETRIES` calls and
issuing no further ones. -/
theorem retry_bound (objective persona : String) (init : List Msg)
    (inputs clickables : List (Int × String)) (order : List Int)
    (model : Nat → ModelResponse) (tb : Nat → String) :
    (chooseAction objective persona init inputs clickables order model tb).modelCalls ≤
      MAX_RETRIES ∧
    errStr Err.exhausted = "Max retries exceeded!" ∧
    ((∀ i, i < MAX_RETRIES →
        resolvedOk (attemptOf (clickables.map Prod.fst) (inputs.map Prod.fst) (model i)) =
          false) →
      (chooseAction objective persona init inputs clickables order model tb).result =
        .error Err.exhausted ∧
      (chooseAction objective persona init inputs clickables order model tb).modelCalls =
        MAX_RETRIES) := by
  have he := chooseAction_eq objective persona init inputs clickables order model tb
  refine ⟨?_, rfl, ?_⟩
  · rw [he]
    have := runLoop_calls_le (clickables.map Prod.fst) (inputs.map Prod.fst) model tb
      MAX_RETRIES 0
      ((if init.length = 0
          then init ++ [Msg.system (systemContent objective persona)] else init) ++
        [Msg.user (userPromptContent order inputs clickables)])
    omega
  · intro h
    have h' : ∀ i, i < MAX_RETRIES →
        resolvedOk (attemptOf (clickables.map Prod.fst) (inputs.map Prod.fst)
          (model (0 + i))) = false := by
      intro i hi
      rw [Nat.zero_add]
      exact h i hi
    have hall := runLoop_all_fail (clickables.map Prod.fst) (inputs.map Prod.fst) model tb
      MAX_RETRIES 0
      ((if init.length = 0
          then init ++ [Msg.system (systemContent objective persona)] else init) ++
        [Msg.user (userPromptContent order inputs clickables)]) h'
    rw [he]
    exact ⟨hall.1, by rw [hall.2]; omega⟩

/-- Claim C2, witness: a model that never produces a code block exhausts
the three retries and the resolution ends with the terminal error. -/
theorem retry_bound_w :
    (∀ i, i < MAX_RETRIES →
      resolvedOk (attemptOf ((([] : List (Int × String))).map Prod.fst)
        ((([] : List (Int × String))).map Prod.fst)
        ((fun _ => (⟨"x", EvalOutcome.raises "e"⟩ : ModelResponse)) i)) = false) ∧
    (chooseAction "" "" [] [] [] [] (fun _ => ⟨"x", EvalOutcome.raises "e"⟩)
      (fun _ => "")).result = .error Err.exhausted :=
  ⟨by decide,
   ((retry_bound "" "" [] [] [] [] (fun _ => ⟨"x", EvalOutcome.raises "e"⟩)
      (fun _ => "")).2.2 (by decide)).1⟩

/-- Claim C3, counterexample.  The claim states the execution context of
the extracted code block binds only the six grammar operation names and
nothing else is reachable.  The globals dict passed to `eval` does bind
exactly those six keys, but it lacks a `"__builtins__"` key, and CPython
then inserts the full builtins module into the globals before
evaluating, so `__builtins__` (hence every builtin name) is bound during
the evaluation as well. -/
theorem eval_context_cex :
    evalGlobalsNames =
      ["go_back", "scroll_up", "scroll_down", "click", "type", "set_objective_complete"] ∧
    "__builtins__" ∈ effectiveEvalNames ∧ "__builtins__" ∉ evalGlobalsNames := by
  decide

/-- Claim C3 (amended): the globals mapping supplied to `eval` binds
exactly the six grammar operation names, but the evaluation context
additionally receives `__builtins__` (CPython inserts it into any globals
lacking it), so builtin names, arbitrary literals and side-effecting
expressions remain reachable from the evaluated block. -/
theorem eval_context_amended :
    effectiveEvalNames =
      ["go_back", "scroll_up", "scroll_down", "click", "type", "set_objective_complete",
       "__builtins__"] := by
  decide

/-- Claim C4, counterexample.  The claim states a `type` action validates
only when exactly the parameters named `id`, `text` and `submit` are
supplied.  The mapping `{id: 3, foo: 1, bar: 2}` (no `text`, no `submit`)
validates successfully when `3` is inputable, because the source checks
only `len(kwargs) != 3`, never the parameter names. -/
theorem type_param_names_cex :
    resolveCall [] [3] "type" [("id", PyVal.int 3), ("foo", PyVal.int 1), ("bar", PyVal.int 2)] =
      .ok ("type", [("id", PyVal.int 3), ("foo", PyVal.int 1), ("bar", PyVal.int 2)]) ∧
    kwGet [("id", PyVal.int 3), ("foo", PyVal.int 1), ("bar", PyVal.int 2)] "text" =
      Option.none ∧
    kwGet [("id", PyVal.int 3), ("foo", PyVal.int 1), ("bar", PyVal.int 2)] "submit" =
      Option.none := by
  decide

/-- Claim C4 (amended): a `type` action (not binding the reserved keyword
`name`) validates iff the supplied id is a key of the inputable set and
exactly three parameters are supplied, regardless of the parameter
names; when the id is inputable but the count differs from 3, the
`ArityMismatch` error is raised. -/
theorem type_arity_amended (clickables inputs : List Int) (kw : Kwargs)
    (h : kwGet kw "name" = Option.none) :
    (resolvedOk (resolveCall clickables inputs "type" kw) =
      (memKeys (getId kw) inputs && decide (kw.length = 3))) ∧
    (memKeys (getId kw) inputs = true → kw.length ≠ 3 →
      resolveCall clickables inputs "type" kw = .error (.arityMismatch kw.length)) := by
  refine ⟨resolvedOk_type clickables inputs kw h, ?_⟩
  intro hm hl
  unfold resolveCall
  rw [evalGrammarCall_type kw h]
  show validate clickables inputs (some "type") kw = _
  rw [validate_type_eq]
  have h1 : ¬ getId kw = PyVal.none := by
    intro heq
    rw [heq, memKeys_none] at hm
    exact absurd hm (by simp)
  rw [if_neg h1]
  have h2 : ¬ memKeys (getId kw) inputs = false := by rw [hm]; simp
  rw [if_neg h2, if_pos hl]

/-- Claim C4, witness for the amended theorem at a concrete input. -/
theorem type_arity_amended_w :
    kwGet [("id", PyVal.int 3), ("x", PyVal.int 1)] "name" = Option.none ∧
    resolveCall [] [3] "type" [("id", PyVal.int 3), ("x", PyVal.int 1)] =
      .error (.arityMismatch 2) :=
  ⟨by decide,
   (type_arity_amended [] [3] [("id", PyVal.int 3), ("x", PyVal.int 1)] (by decide)).2
     (by decide) (by decide)⟩

/-- Claim C5, counterexample.  The claim states every resolved operation
name is drawn from {go_back, scroll_up, scroll_down, click, type,
set_objective_complete}, in particular for `scroll_up()`.  But the
`FUNCTIONS` table binds `scroll_up` to a partial whose positional name is
`'scroll'`, so `scroll_up()` resolves to the operation name `"scroll"`
(with a `direction` parameter), which is not in that set. -/
theorem scroll_naming_cex :
    resolveCall [] [] "scroll_up" [] = .ok ("scroll", [("direction", PyVal.str "up")]) ∧
    "scroll" ∉
      ["go_back", "scroll_up", "scroll_down", "click", "type", "set_objective_complete"] := by
  decide

lemma resolveCall_ok_mem (clickables inputs : List Int) (f : String) (kw : Kwargs)
    (r : String × Kwargs) (h : resolveCall clickables inputs f kw = .ok r) :
    r.1 ∈ ["go_back", "scroll", "click", "type", "set_objective_complete"] := by
  unfold resolveCall at h
  cases he : evalGrammarCall f kw with
  | error m => rw [he] at h; exact absurd h (by simp)
  | ok p =>
    obtain ⟨nm, kw'⟩ := p
    rw [he] at h
    obtain ⟨nm0, hs, hr⟩ := validate_ok_shape clickables inputs (some nm) kw' r h
    have hnm : nm = nm0 := Option.some.inj hs
    subst hnm
    unfold evalGrammarCall at he
    cases hl : lookupSpec FUNCTIONS f with
    | none => rw [hl] at he; exact absurd he (by simp)
    | some s =>
      rw [hl] at he
      simp only [fakeFunc] at he
      split at he
      · exact absurd he (by simp)
      · have hpos : s.posName = nm := congrArg Prod.fst (Except.ok.inj he)
        rw [hr]
        show nm ∈ _
        rw [← hpos]
        exact FUNCTIONS_posName s (lookupSpec_mem FUNCTIONS f s hl)

lemma attemptOf_ok_shape (clickables inputs : List Int) (resp : ModelResponse)
    (r : String × Kwargs) (h : attemptOf clickables inputs resp = .ok r) :
    ∃ (f : String) (kw : Kwargs),
      resp.outcome = EvalOutcome.returns (some f) kw ∧ r = (f, kw) := by
  unfold attemptOf at h
  cases he : extractCode resp.text with
  | error e =>
    rw [he] at h
    exact absurd h (by simp)
  | ok c =>
    rw [he] at h
    cases ho : resp.outcome with
    | raises m =>
      rw [ho] at h
      exact absurd h (by simp)
    | returns func kw =>
      rw [ho] at h
      have h' : validate clickables inputs func kw = .ok r := h
      obtain ⟨nm, hs, hr⟩ := validate_ok_shape clickables inputs func kw r h'
      subst hs
      exact ⟨nm, kw, rfl, hr⟩

/-- Claim C5 (amended): a successful resolution returns exactly the pair
the evaluated block produced, and the closed operation set is enforced
only for blocks that call one of the six bound grammar names: such calls
yield an operation name in {go_back, scroll, click, type,
set_objective_complete} (`scroll_up()`/`scroll_down()` yield `scroll`
with the direction as a parameter).  In general validation constrains
the name only to be non-`None` and to pass the id checks when it is
`click` or `type`, so a last block whose evaluation returns an arbitrary
pair -- possible under unrestricted `eval` -- resolves successfully with
an operation name outside any closed set, as the `("foo", {})` instance
in the last conjunct shows. -/
theorem resolved_op_amended :
    (∀ (clickables inputs : List Int) (f : String) (kw : Kwargs) (r : String × Kwargs),
        resolveCall clickables inputs f kw = .ok r →
        r.1 ∈ ["go_back", "scroll", "click", "type", "set_objective_complete"]) ∧
    (∀ (clickables inputs : List Int) (resp : ModelResponse) (r : String × Kwargs),
        attemptOf clickables inputs resp = .ok r →
        ∃ (f : String) (kw : Kwargs),
          resp.outcome = EvalOutcome.returns (some f) kw ∧ r = (f, kw)) ∧
    (attemptOf [] [] ⟨"```\nx\n```", EvalOutcome.returns (some "foo") []⟩ = .ok ("foo", []) ∧
     "foo" ∉ ["go_back", "scroll", "click", "type", "set_objective_complete"]) :=
  ⟨resolveCall_ok_mem, attemptOf_ok_shape, by decide⟩

/-- Claim C5, witness for the amended theorem at a concrete input. -/
theorem resolved_op_amended_w :
    resolveCall [] [] "go_back" [] = .ok ("go_back", []) ∧
    (("go_back", ([] : Kwargs)) : String × Kwargs).1 ∈
      ["go_back", "scroll", "click", "type", "set_objective_complete"] :=
  ⟨by decide, resolved_op_amended.1 [] [] "go_back" [] ("go_back", []) (by decide)⟩

/-- Claim C6, counterexample.  The claim states the rendering lists the
`<node>` entries ordered by identifier ascending.  The source iterates
the Python set `inputs.keys() | clickables.keys()`, whose iteration order
is unspecified and not sorted: `[8, 1]` is a valid iteration order for
the union of `{1}` and `{8}` (and is the order CPython actually produces
for it, since `hash(8)` lands in slot 0 and `hash(1)` in slot 1 of the
8-slot table), and the resulting entry sequence is not ascending. -/
theorem render_order_cex :
    validOrder [8, 1] [(1, "A")] [(8, "B")] ∧
    ((renderEntries [8, 1] [(1, "A")] [(8, "B")]).map NodeEntry.id) = [8, 1] ∧
    ¬ List.Chain' (fun a b => a ≤ b)
        ((renderEntries [8, 1] [(1, "A")] [(8, "B")]).map NodeEntry.id) := by
  refine ⟨by decide, by decide, ?_⟩
  intro hch
  rw [(by decide :
    ((renderEntries [8, 1] [(1, "A")] [(8, "B")]).map NodeEntry.id) = [8, 1])] at hch
  have h81 := (List.chain'_cons.mp hch).1
  omega

/-- Claim C6 (amended): the rendering lists exactly one `<node>` entry
per identifier of the union of the two key sets, in the set's iteration
order — an unspecified permutation of the union — rather than in
ascending identifier order. -/
theorem render_order_amended (order : List Int) (inputs clickables : List (Int × String))
    (h : validOrder order inputs clickables) :
    ((renderEntries order inputs clickables).map NodeEntry.id) = order ∧
    (∀ i : Int, i ∈ order ↔ (hasKeyI inputs i || hasKeyI clickables i) = true) := by
  refine ⟨renderEntries_ids order inputs clickables, ?_⟩
  intro i
  constructor
  · exact h.2.1 i
  · exact hasKey_mem_order order inputs clickables h i

/-- Claim C6, witness for the amended theorem at a concrete input. -/
theorem render_order_amended_w :
    validOrder [5] [(5, "N")] [] ∧
    (((renderEntries [5] [(5, "N")] []).map NodeEntry.id) = [5] ∧
     (∀ i : Int, i ∈ ([5] : List Int) ↔ (hasKeyI [(5, "N")] i || hasKeyI [] i) = true)) :=
  ⟨by decide, render_order_amended [5] [(5, "N")] [] (by decide)⟩

/-- Claim C7: for every page index (and every possible set-iteration
order), the rendering contains exactly one `<node>` entry per identifier
of the union of the clickable and inputable key sets, and each entry's
`clickable`/`inputable` flags are `True` exactly when its identifier is a
key of the corresponding dict; an identifier in both dicts renders once
with both flags `True`. -/
theorem render_nodes_complete (order : List Int) (inputs clickables : List (Int × String))
    (h : validOrder order inputs clickables) :
    (∀ i : Int, ((renderEntries order inputs clickables).map NodeEntry.id).count i =
      (if (hasKeyI inputs i || hasKeyI clickables i) = true then 1 else 0)) ∧
    (∀ e ∈ renderEntries order inputs clickables,
      e.clickable = hasKeyI clickables e.id ∧ e.inputable = hasKeyI inputs e.id) := by
  constructor
  · intro i
    rw [renderEntries_ids]
    by_cases hk : (hasKeyI inputs i || hasKeyI clickables i) = true
    · rw [if_pos hk]
      exact List.count_eq_one_of_mem ((nodupI_iff order).mp h.1)
        (hasKey_mem_order order inputs clickables h i hk)
    · rw [if_neg hk]
      exact List.count_eq_zero_of_not_mem (fun hm => hk (h.2.1 i hm))
  · intro e he
    obtain ⟨x, _, rfl⟩ := List.mem_map.mp he
    exact ⟨rfl, rfl⟩

/-- Claim C7, witness at a concrete page index with an identifier in both
dicts. -/
theorem render_nodes_complete_w :
    validOrder [1, 2] [(1, "A"), (2, "B")] [(2, "C")] ∧
    ((∀ i : Int,
        ((renderEntries [1, 2] [(1, "A"), (2, "B")] [(2, "C")]).map NodeEntry.id).count i =
          (if (hasKeyI [(1, "A"), (2, "B")] i || hasKeyI [(2, "C")] i) = true then 1 else 0)) ∧
     (∀ e ∈ renderEntries [1, 2] [(1, "A"), (2, "B")] [(2, "C")],
        e.clickable = hasKeyI [(2, "C")] e.id ∧
          e.inputable = hasKeyI [(1, "A"), (2, "B")] e.id)) :=
  ⟨by decide, render_nodes_complete [1, 2] [(1, "A"), (2, "B")] [(2, "C")] (by decide)⟩

/-- Claim C8: parsing extracts the last fenced code block (fence with an
optional `python` tag) and hands exactly that block to evaluation,
ignoring all earlier blocks; a response with zero fenced code blocks
fails with `NoCodeBlock`. -/
theorem extract_last_block (s : String) :
    (pyFindall s = [] ↔ extractCode s = .error .noCodeBlock) ∧
    (∀ pre b, pyFindall s = pre ++ [b] → extractCode s = .ok b) := by
  constructor
  · constructor
    · intro h
      simp only [extractCode]
      rw [h]
      rfl
    · intro h
      by_cases hl : (pyFindall s).length = 0
      · exact List.length_eq_zero.mp hl
      · simp only [extractCode] at h
        rw [if_neg hl] at h
        exact absurd h (by simp)
  · intro pre b h
    simp only [extractCode]
    rw [h]
    have hne : ¬ (pre ++ [b]).length = 0 := by simp
    rw [if_neg hne, List.getLast?_concat]
    rfl

/-- Claim C8, witness: a response with two fenced blocks (one tagged
`python`, one untagged) resolves to the second block. -/
theorem extract_last_block_w :
    pyFindall "q ```python\nfirst()\n``` w ```\nsecond()\n```" = ["first()"] ++ ["second()"] ∧
    extractCode "q ```python\nfirst()\n``` w ```\nsecond()\n```" = .ok "second()" :=
  ⟨by decide,
   (extract_last_block "q ```python\nfirst()\n``` w ```\nsecond()\n```").2
     ["first()"] "second()" (by decide)⟩

/-- Claim C9: the transcript is append-only throughout resolution — the
final transcript is the initial one followed by the appended suffix: the
system message exactly when the transcript was empty at entry, then the
user prompt, then per attempt one assistant message holding the full
model response, with one corrective user message (carrying the error
description through `errFeedback`) after each failed attempt, as
`loopMsgs` makes explicit. -/
theorem transcript_append_shape (objective persona : String) (init : List Msg)
    (inputs clickables : List (Int × String)) (order : List Int)
    (model : Nat → ModelResponse) (tb : Nat → String) :
    (chooseAction objective persona init inputs clickables order model tb).messages =
      init ++ (if init.length = 0 then [Msg.system (systemContent objective persona)] else []) ++
        [Msg.user (userPromptContent order inputs clickables)] ++
        loopMsgs (clickables.map Prod.fst) (inputs.map Prod.fst) model tb MAX_RETRIES 0 := by
  rw [chooseAction_eq, runLoop_messages]
  by_cases h0 : init.length = 0
  · have hinit : init = [] := List.length_eq_zero.mp h0
    subst hinit
    simp
  · simp [h0]

/-- Claim C10, counterexample.  The implicit claim states that for
operations other than `type`, arbitrary extra keyword parameters are
accepted provided the other checks pass.  `go_back` has no other checks,
yet `go_back(name="x")` is not accepted: the keyword `name` collides with
the positional argument `functools.partial` fixed for `_fake_func` and
evaluation raises `TypeError`. -/
theorem nontype_name_cex :
    resolveCall [] [] "go_back" [("name", PyVal.str "x")] =
      .error (.evalError "_fake_func() got multiple values for argument \x27name\x27") := by
  decide

/-- Claim C10 (amended): for every operation other than `type`,
validation imposes no arity constraint — any parameter mapping not
binding the reserved keyword `name` is accepted (for `click`, provided
the id check passes) and every supplied parameter reappears unchanged in
the returned mapping; `go_back`, `set_objective_complete` and `click`
return the mapping itself, while `scroll_up`/`scroll_down` return it
merged under the partial's `direction` default, which preserves every
supplied binding. -/
theorem nontype_params_amended (clickables inputs : List Int) (kw : Kwargs)
    (h : kwGet kw "name" = Option.none) :
    resolveCall clickables inputs "go_back" kw = .ok ("go_back", kw) ∧
    resolveCall clickables inputs "set_objective_complete" kw =
      .ok ("set_objective_complete", kw) ∧
    (memKeys (getId kw) clickables = true →
      resolveCall clickables inputs "click" kw = .ok ("click", kw)) ∧
    resolveCall clickables inputs "scroll_up" kw =
      .ok ("scroll", mergeKw [("direction", PyVal.str "up")] kw) ∧
    resolveCall clickables inputs "scroll_down" kw =
      .ok ("scroll", mergeKw [("direction", PyVal.str "down")] kw) ∧
    (∀ (d : String) (v0 : PyVal) (k : String) (v : PyVal), kwGet kw k = some v →
      kwGet (mergeKw [(d, v0)] kw) k = some v) := by
  refine ⟨?_, ?_, ?_, ?_, ?_, ?_⟩
  · unfold resolveCall
    rw [evalGrammarCall_go_back kw h]
    show validate clickables inputs (some "go_back") kw = _
    exact validate_other clickables inputs kw "go_back" (by decide) (by decide)
  · unfold resolveCall
    rw [evalGrammarCall_soc kw h]
    show validate clickables inputs (some "set_objective_complete") kw = _
    exact validate_other clickables inputs kw "set_objective_complete" (by decide) (by decide)
  · intro hm
    unfold resolveCall
    rw [evalGrammarCall_click kw h]
    show validate clickables inputs (some "click") kw = _
    rw [validate_click_eq]
    have h1 : ¬ getId kw = PyVal.none := by
      intro heq
      rw [heq, memKeys_none] at hm
      exact absurd hm (by simp)
    rw [if_neg h1, if_neg (by rw [hm]; simp)]
  · unfold resolveCall
    rw [evalGrammarCall_scroll_up kw h]
    show validate clickables inputs (some "scroll") (mergeKw [("direction", PyVal.str "up")] kw) = _
    exact validate_other clickables inputs (mergeKw [("direction", PyVal.str "up")] kw) "scroll"
      (by decide) (by decide)
  · unfold resolveCall
    rw [evalGrammarCall_scroll_down kw h]
    show validate clickables inputs (some "scroll") (mergeKw [("direction", PyVal.str "down")] kw) = _
    exact validate_other clickables inputs (mergeKw [("direction", PyVal.str "down")] kw) "scroll"
      (by decide) (by decide)
  · intro d v0 k v hk
    rw [kwGet_mergeKw_single]
    by_cases hd : d = k
    · rw [if_pos hd]
      subst hd
      rw [hk]
      rfl
    · rw [if_neg hd]
      exact hk

/-- Claim C10, witness for the amended theorem at a concrete input. -/
theorem nontype_params_amended_w :
    kwGet [("foo", PyVal.int 5)] "name" = Option.none ∧
    resolveCall [3] [] "go_back" [("foo", PyVal.int 5)] = .ok ("go_back", [("foo", PyVal.int 5)]) :=
  ⟨by decide, (nontype_params_amended [3] [] [("foo", PyVal.int 5)] (by decide)).1⟩
